import Mathlib

/-!
# Fleet servicing tracker — verification of the aggregation/reporting core

Shallow embedding of `src/main.py`: a FastAPI + SQLAlchemy application that
tracks port-call servicing operations of ships.  The relational store is
modelled as lists of records; SQL floats (`Column(Float)`) are modelled as
rationals `ℚ`; calendar dates are modelled as an integer key that orders
dates chronologically (for a parsed `YYYY-MM-DD` date the key is
`y*10000 + m*100 + d`, which agrees with chronological order since
`m ≤ 12` and `d ≤ 31`).

SQL semantics modelled explicitly below:
* `LEFT OUTER JOIN` null-extension (a parent row with no children produces a
  single row whose child columns are NULL, modelled with `Option`);
* the fact that a `WHERE` predicate on a NULL column is not satisfied
  (`NULL <= d` is NULL, hence the row is dropped);
* `SUM` returning NULL on an empty group (`Option ℚ`), `COUNT(col)` counting
  the non-NULL occurrences of `col` across the rows of the group;
* Python truthiness (`if ship_ids:`, `if port_id:`, `x or 0.0`).
-/

namespace Fleet

/-! ## Data model (src/main.py lines 22-65)

`Ship`, `Pollutant` carry a unique id (primary key) and a unique name.
`Port` and `Contractor` are structurally identical lookup tables; no claim
inspects them, operations reference them by id only, so only the ids appear
here.  `Operation.date` is the chronological integer key described above. -/

structure Ship where
  id : Nat
  name : String
deriving DecidableEq

structure Pollutant where
  id : Nat
  name : String
deriving DecidableEq

structure Operation where
  id : Nat
  ship_id : Nat
  port_id : Nat
  contractor_id : Nat
  date : Int
  has_documents : Bool
deriving DecidableEq

structure OperationPollutant where
  id : Nat
  operation_id : Nat
  pollutant_id : Nat
  volume : ℚ
  cost : ℚ
deriving DecidableEq

/-- The relational store (`fleet.db`): one list per table. -/
structure DB where
  ships : List Ship
  pollutants : List Pollutant
  operations : List Operation
  operation_pollutants : List OperationPollutant
deriving DecidableEq

/-! ## Python numeric / date parsing

The handlers parse request strings with `int(...)`, `float(...)` and
`datetime.strptime(..., "%Y-%m-%d")`, catching `ValueError`.  Parsing is
modelled as `Option`-returning functions: `none` is the `ValueError` case.

`int()` accepts surrounding ASCII whitespace, an optional sign, and a
nonempty digit string in which single underscores may separate digits.
`float()` accepts the same envelope around `digits[.digits][(e|E)[sign]digits]`
(at least one mantissa digit).  Non-finite literals (`inf`, `nan`) have no
rational value and are outside this model; no claim involves them.
Unicode digits/whitespace are likewise out of scope. -/

/-- Strict lexicographic (codepoint-wise) order on character lists: the
binary collation `ORDER BY` uses on text columns. -/
def charListLtb : List Char → List Char → Bool
  | [], [] => false
  | [], _ :: _ => true
  | _ :: _, [] => false
  | a :: as, b :: bs => decide (a < b) || (decide (a = b) && charListLtb as bs)

/-- Strict collation order on strings. -/
def strLtb (a b : String) : Bool := charListLtb a.toList b.toList

/-- Reflexive collation order on strings. -/
def strLeb (a b : String) : Bool := !(strLtb b a)

/-- Python `str.split(sep)` for a one-character separator, over the
character list: splits at every occurrence, keeping empty segments
(`"".split(",") == [""]`, `"1,,3".split(",") == ["1","","3"]`). -/
def pySplit (sep : Char) : List Char → List (List Char)
  | [] => [[]]
  | c :: rest =>
    let r := pySplit sep rest
    if c = sep then [] :: r
    else
      match r with
      | h :: t => (c :: h) :: t
      | [] => [[c]]

/-- Python `str.split(sep)` on strings. -/
def pySplitStr (sep : Char) (s : String) : List String :=
  (pySplit sep s.toList).map String.mk

/-- ASCII fragment of `str.lower()` (the only comparison target in the
source, `"asc"`, is ASCII). -/
def asciiLower (c : Char) : Char :=
  if 'A' ≤ c && c ≤ 'Z' then Char.ofNat (c.toNat + 32) else c

/-- `str.lower()` on strings (ASCII fragment). -/
def pyLower (s : String) : String := String.mk (s.toList.map asciiLower)

def isPySpace (c : Char) : Bool :=
  c = ' ' || c = '\t' || c = '\n' || c = '\r' || c = '\x0b' || c = '\x0c'

/-- `str.strip()` as applied by `int()` / `float()` before parsing. -/
def stripChars (cs : List Char) : List Char :=
  ((cs.dropWhile isPySpace).reverse.dropWhile isPySpace).reverse

/-- Valid continuation of a digit group after one digit was read:
digits, with single underscores allowed only between digits. -/
def uTail : List Char → Bool
  | [] => true
  | '_' :: c :: rest => c.isDigit && uTail (c :: rest)
  | '_' :: [] => false
  | c :: rest => c.isDigit && uTail rest

/-- A nonempty digit group, underscores allowed only between digits
(Python's grammar for integer literals accepted by `int`/`float`). -/
def uDigits : List Char → Bool
  | [] => false
  | c :: rest => c.isDigit && uTail rest

/-- Numeric value of a digit group (underscores skipped). -/
def digitsVal (cs : List Char) : Nat :=
  (cs.filter (fun c => c ≠ '_')).foldl (fun n c => 10 * n + (c.toNat - 48)) 0

/-- Python `int(s)`: `none` models `ValueError`. -/
def pythonInt (s : String) : Option Int :=
  match stripChars s.toList with
  | '+' :: rest => if uDigits rest then some (digitsVal rest : Int) else none
  | '-' :: rest => if uDigits rest then some (-(digitsVal rest : Int)) else none
  | rest => if uDigits rest then some (digitsVal rest : Int) else none

/-- Split a character list at the first character satisfying `p`
(none if no such character). -/
def splitFirst (p : Char → Bool) : List Char → Option (List Char × List Char)
  | [] => none
  | c :: rest =>
    if p c then some ([], rest)
    else
      match splitFirst p rest with
      | some (a, b) => some (c :: a, b)
      | none => none

/-- Number of actual digits of a fractional digit group (underscores skipped). -/
def fracLen (cs : List Char) : Nat := (cs.filter (fun c => c ≠ '_')).length

/-- Mantissa of a float literal: `digits`, `digits.`, `.digits` or
`digits.digits` (each digit group underscore-separated). -/
def parseMantissa (cs : List Char) : Option ℚ :=
  match splitFirst (fun c => c = '.') cs with
  | none => if uDigits cs then some ((digitsVal cs : ℚ)) else none
  | some (ip, fp) =>
    if (ip.isEmpty || uDigits ip) && (fp.isEmpty || uDigits fp)
        && !(ip.isEmpty && fp.isEmpty) then
      some ((digitsVal ip : ℚ) + (digitsVal fp : ℚ) / (10 : ℚ) ^ (fracLen fp))
    else none

/-- Exponent part of a float literal (after the `e`/`E`). -/
def parseExp (cs : List Char) : Option Int :=
  match cs with
  | '+' :: rest => if uDigits rest then some (digitsVal rest : Int) else none
  | '-' :: rest => if uDigits rest then some (-(digitsVal rest : Int)) else none
  | rest => if uDigits rest then some (digitsVal rest : Int) else none

/-- Unsigned body of a float literal: mantissa with optional exponent. -/
def parseFloatBody (cs : List Char) : Option ℚ :=
  match splitFirst (fun c => c = 'e' || c = 'E') cs with
  | none => parseMantissa cs
  | some (m, e) =>
    match parseMantissa m, parseExp e with
    | some q, some ex => some (q * (10 : ℚ) ^ ex)
    | _, _ => none

/-- Python `float(s)` restricted to finite literals: `none` models `ValueError`. -/
def pythonFloat (s : String) : Option ℚ :=
  match stripChars s.toList with
  | '+' :: rest => parseFloatBody rest
  | '-' :: rest => (parseFloatBody rest).map (fun q => -q)
  | rest => parseFloatBody rest

/-- Leap-year rule used by `datetime.date`. -/
def isLeap (y : Nat) : Bool := (y % 4 = 0 && y % 100 ≠ 0) || y % 400 = 0

/-- Length of a month as validated by `datetime.date`. -/
def daysInMonth (y m : Nat) : Nat :=
  if m = 2 then (if isLeap y then 29 else 28)
  else if m = 4 || m = 6 || m = 9 || m = 11 then 30
  else 31

/-- `datetime.strptime(s, "%Y-%m-%d").date()`, returning the chronological
integer key of the date; `none` models `ValueError`.  CPython's `%Y` matches
exactly four digits, `%m`/`%d` one or two; the resulting numbers are then
validated by the `datetime.date` constructor (month 1-12, day within the
month, year ≥ 1), and the whole string must be consumed. -/
def parseDate (s : String) : Option Int :=
  match pySplitStr '-' s with
  | [ys, ms, ds] =>
    let yc := ys.toList
    let mc := ms.toList
    let dc := ds.toList
    if yc.all Char.isDigit && decide (yc.length = 4)
        && mc.all Char.isDigit && decide (1 ≤ mc.length) && decide (mc.length ≤ 2)
        && dc.all Char.isDigit && decide (1 ≤ dc.length) && decide (dc.length ≤ 2) then
      let y := digitsVal yc
      let m := digitsVal mc
      let d := digitsVal dc
      if decide (1 ≤ y) && decide (1 ≤ m) && decide (m ≤ 12)
          && decide (1 ≤ d) && decide (d ≤ daysInMonth y m) then
        some ((y * 10000 + m * 100 + d : Nat) : Int)
      else none
    else none
  | _ => none

/-! ## GET / — list endpoint (src/main.py lines 116-184)

`list_operations` composes optional filters over the operation table and
sorts by date.  Each filter mirrors one `try`/`except ValueError: pass`
block: a malformed parameter contributes no constraint.  Absent query
parameters are `none`; FastAPI passes an empty string through as `""`,
and Python truthiness (`if ship_ids:`/`if start_date:`/`if port_id:`)
makes `""` and `0` behave like absence. -/

/-- `[int(id) for id in ... if id]`: the comprehension evaluates `int` on
every (nonempty) token and the first failure aborts the whole list
(`ValueError` caught by the enclosing `try`). -/
def parseIdList : List String → Option (List Int)
  | [] => some []
  | t :: ts =>
    match pythonInt t, parseIdList ts with
    | some n, some ns => some (n :: ns)
    | _, _ => none

/-- Lines 129-134: the ship filter.  `none` = no filter (parameter absent,
empty, or containing an unparsable nonempty token); empty tokens are
discarded by the comprehension's `if id` before parsing. -/
def shipIdsFilter (ship_ids : Option String) : Option (List Int) :=
  match ship_ids with
  | none => none
  | some s =>
    if s.isEmpty then none
    else parseIdList ((pySplitStr ',' s).filter (fun t => !t.isEmpty))

/-- Lines 137-149: one date bound.  `none` = no constraint (parameter
absent, empty, or not a valid `%Y-%m-%d` date). -/
def dateBound (p : Option String) : Option Int :=
  match p with
  | none => none
  | some s => if s.isEmpty then none else parseDate s

/-- `ORDER BY operations.date ASC` as a relation for the sort. -/
def dateAsc (a b : Operation) : Prop := a.date ≤ b.date

/-- `ORDER BY operations.date DESC` as a relation for the sort. -/
def dateDesc (a b : Operation) : Prop := b.date ≤ a.date

instance : DecidableRel dateAsc :=
  fun a b => inferInstanceAs (Decidable (a.date ≤ b.date))

instance : DecidableRel dateDesc :=
  fun a b => inferInstanceAs (Decidable (b.date ≤ a.date))

/-- The filtered, sorted operation list produced by `GET /`
(src/main.py lines 126-161). -/
def list_operations (db : DB) (ship_ids start_date end_date : Option String)
    (port_id : Option Int) (sort_order : String) : List Operation :=
  let q0 := db.operations
  let q1 :=
    match shipIdsFilter ship_ids with
    | some ids => q0.filter (fun op => ids.contains (op.ship_id : Int))
    | none => q0
  let q2 :=
    match dateBound start_date with
    | some d => q1.filter (fun op => decide (d ≤ op.date))
    | none => q1
  let q3 :=
    match dateBound end_date with
    | some d => q2.filter (fun op => decide (op.date ≤ d))
    | none => q2
  let q4 :=
    match port_id with
    | some p => if p = 0 then q3 else q3.filter (fun op => decide ((op.port_id : Int) = p))
    | none => q3
  if pyLower sort_order = "asc" then List.insertionSort dateAsc q4
  else List.insertionSort dateDesc q4

/-- Whether an operation passes the ship filter derived from `ship_ids`
(`true` when the filter is skipped). -/
def shipOkb (ship_ids : Option String) (op : Operation) : Bool :=
  match shipIdsFilter ship_ids with
  | some ids => ids.contains (op.ship_id : Int)
  | none => true

/-- Whether an operation passes the (inclusive) start-date constraint
(`true` when the bound is absent or malformed). -/
def startOkb (start_date : Option String) (op : Operation) : Bool :=
  match dateBound start_date with
  | some d => decide (d ≤ op.date)
  | none => true

/-- Whether an operation passes the (inclusive) end-date constraint
(`true` when the bound is absent or malformed). -/
def endOkb (end_date : Option String) (op : Operation) : Bool :=
  match dateBound end_date with
  | some d => decide (op.date ≤ d)
  | none => true

/-- Whether an operation passes the port filter (`true` when `port_id` is
absent or `0`, both falsy in Python). -/
def portOkb (port_id : Option Int) (op : Operation) : Bool :=
  match port_id with
  | some p => if p = 0 then true else decide ((op.port_id : Int) = p)
  | none => true

/-! ## Cost rollup (src/main.py lines 164-167 and 195) -/

/-- The line items of one operation
(`OperationPollutant.operation_id == op.id`). -/
def opItems (db : DB) (opId : Nat) : List OperationPollutant :=
  db.operation_pollutants.filter (fun it => it.operation_id == opId)

/-- `db.query(func.sum(OperationPollutant.cost)).filter(...).scalar()`:
SQL `SUM` over the matching rows, NULL (`none`) when there are none. -/
def sqlSumCost (db : DB) (opId : Nat) : Option ℚ :=
  let cs := (opItems db opId).map OperationPollutant.cost
  if cs.isEmpty then none else some cs.sum

/-- The per-operation total used by the list view (line 166):
`scalar() or 0.0` (`None` and `0.0` are both falsy, so `or 0.0` is
exactly `Option.getD 0`). -/
def listTotalCost (db : DB) (opId : Nat) : ℚ := (sqlSumCost db opId).getD 0

/-- The per-operation total used by the JSON detail view (line 195):
character-for-character the same expression as line 166. -/
def detailTotalCost (db : DB) (opId : Nat) : ℚ := (sqlSumCost db opId).getD 0

/-- `GET /operation/{id}` (lines 186-205): `none` models the 404 branch;
otherwise the operation row, its line items, and the rolled-up total cost
(the response fields the claims are about). -/
def get_operation (db : DB) (operation_id : Nat) :
    Option (Operation × List OperationPollutant × ℚ) :=
  match db.operations.find? (fun o => o.id == operation_id) with
  | none => none
  | some op => some (op, opItems db op.id, detailTotalCost db op.id)

/-! ## POST /create and POST /edit/{id} (src/main.py lines 215-249, 266-308)

The submitted form is a list of key/value pairs; `key in form_data` and
`form_data.get(key, default)` look keys up (first match).  Both handlers run
the same per-pollutant loop (lines 232-246 and 291-305 are verbatim
identical), modelled once as `buildLineItems`. -/

@[reducible] def Form := List (String × String)

/-- `key in form_data`. -/
def formHasKey (fd : Form) (k : String) : Bool := fd.any (fun kv => kv.1 == k)

/-- `form_data.get(key)`: first value for the key, if present. -/
def formGet (fd : Form) (k : String) : Option String :=
  (fd.find? (fun kv => kv.1 == k)).map Prod.snd

/-- `float(form_data.get(key, 0.0))`: an absent key gives the default
`0.0` (`float(0.0)` succeeds); otherwise the string value is parsed,
`none` modelling the `ValueError` caught at lines 244/303. -/
def getFloatField (fd : Form) (k : String) : Option ℚ :=
  match formGet fd k with
  | some v => pythonFloat v
  | none => some 0

/-- The dynamic form key `f"volume_{pollutant.id}"`. -/
def volume_key (p : Pollutant) : String := "volume_" ++ toString p.id

/-- The dynamic form key `f"cost_{pollutant.id}"`. -/
def cost_key (p : Pollutant) : String := "cost_" ++ toString p.id

/-- The per-pollutant loop of the create (lines 232-246) and edit
(lines 291-305) handlers: for each known pollutant, if both dynamic form
keys are present and both values parse, a line item is persisted exactly
when `volume > 0 or cost > 0`; a `ValueError` (either field) skips that
single pollutant and continues.  New rows get surrogate id 0: the
autoincrement primary key is irrelevant to every claim. -/
def buildLineItems (pollutants : List Pollutant) (fd : Form) (opId : Nat) :
    List OperationPollutant :=
  pollutants.filterMap (fun p =>
    if formHasKey fd (volume_key p) && formHasKey fd (cost_key p) then
      match getFloatField fd (volume_key p), getFloatField fd (cost_key p) with
      | some volume, some cost =>
        if 0 < volume ∨ 0 < cost then
          some { id := 0, operation_id := opId, pollutant_id := p.id,
                 volume := volume, cost := cost }
        else none
      | _, _ => none
    else none)

/-- What `POST /create` persists: the new operation row and its line items. -/
structure CreateResult where
  operation : Operation
  items : List OperationPollutant
deriving DecidableEq

/-- `POST /create` (lines 215-249).  The `Operation(...)` constructor is
called without `has_documents`, so the column default `False` (line 49)
applies.  `newId` is the id assigned by the store on flush. -/
def create_operation (db : DB) (newId : Nat) (ship_id port_id contractor_id : Nat)
    (d : Int) (fd : Form) : CreateResult :=
  { operation :=
      { id := newId, ship_id := ship_id, port_id := port_id,
        contractor_id := contractor_id, date := d, has_documents := false },
    items := buildLineItems db.pollutants fd newId }

/-- `POST /edit/{id}` (lines 266-308): `none` models the 404 branch;
otherwise the main row is overwritten (including `has_documents`), the
operation's old line items are deleted, and the rebuilt set is inserted. -/
def update_operation (db : DB) (operation_id : Nat)
    (ship_id port_id contractor_id : Nat) (d : Int) (has_documents : Bool)
    (fd : Form) : Option DB :=
  match db.operations.find? (fun o => o.id == operation_id) with
  | none => none
  | some _ =>
    some { db with
      operations := db.operations.map (fun o =>
        if o.id = operation_id then
          { o with ship_id := ship_id, port_id := port_id,
                   contractor_id := contractor_id, date := d,
                   has_documents := has_documents }
        else o),
      operation_pollutants :=
        db.operation_pollutants.filter (fun it => !(it.operation_id == operation_id))
          ++ buildLineItems db.pollutants fd operation_id }

/-! ## GET /analytics (src/main.py lines 319-356)

Both queries build the same four-table join
`ships ⟕ operations ⟕ operation_pollutants ⟕ pollutants`
(LEFT OUTER JOIN on `Ship.id = Operation.ship_id`,
`Operation.id = OperationPollutant.operation_id`,
`OperationPollutant.pollutant_id = Pollutant.id`).  A join row therefore
consists of a ship and optional operation / line item / pollutant
(NULL-extended when a level has no match). -/

/-- The fixed reference date `date(2025, 9, 28)` of line 321, as its
chronological key. -/
def analytics_current_date : Int := 20250928

/-- One row of the four-table left join. -/
structure JoinRow where
  ship : Ship
  op : Option Operation
  item : Option OperationPollutant
  poll : Option Pollutant
deriving DecidableEq

/-- The pollutant referenced by a line item
(join condition `OperationPollutant.pollutant_id == Pollutant.id`). -/
def lookupPollutant (db : DB) (pid : Nat) : Option Pollutant :=
  db.pollutants.find? (fun p => p.id == pid)

/-- The join rows contributed by one ship: a single NULL-extended row when
the ship has no operations; otherwise, per operation, a single
NULL-extended row when the operation has no line items, else one row per
line item (with its pollutant, NULL if the reference dangles). -/
def joinShip (db : DB) (s : Ship) : List JoinRow :=
  let ops := db.operations.filter (fun o => o.ship_id == s.id)
  if ops.isEmpty then [⟨s, none, none, none⟩]
  else
    ops.flatMap (fun o =>
      let its := opItems db o.id
      if its.isEmpty then [⟨s, some o, none, none⟩]
      else its.map (fun it => ⟨s, some o, some it, lookupPollutant db it.pollutant_id⟩))

/-- The full join relation. -/
def joinAll (db : DB) : List JoinRow := db.ships.flatMap (joinShip db)

/-- `WHERE Operation.date <= current_date`: a NULL-extended row (a ship
with no operations) has a NULL date, the SQL comparison yields NULL, and
the row is dropped — this is what defeats the outer join in the summary
query. -/
def rowDateOk (cutoff : Int) (r : JoinRow) : Bool :=
  match r.op with
  | some o => decide (o.date ≤ cutoff)
  | none => false

/-- The rows of the summary query's group for a given ship (`GROUP BY
Ship.id`; primary-key uniqueness of `ships.id` makes the group of the id
the group of the ship). -/
def shipGroupRows (db : DB) (cutoff : Int) (s : Ship) : List JoinRow :=
  (joinShip db s).filter (rowDateOk cutoff)

/-- SQL `SUM` over a group column: NULL on no rows. -/
def sqlSumQ (l : List ℚ) : Option ℚ := if l.isEmpty then none else some l.sum

/-- SQL `MIN` over a group column: NULL on no rows. -/
def sqlMinI : List Int → Option Int
  | [] => none
  | x :: xs => some (xs.foldl min x)

/-- SQL `MAX` over a group column: NULL on no rows. -/
def sqlMaxI : List Int → Option Int
  | [] => none
  | x :: xs => some (xs.foldl max x)

/-- The non-NULL values of the `volume` column across a list of join rows. -/
def rowVolumes (rows : List JoinRow) : List ℚ :=
  rows.filterMap (fun r => r.item.map (fun it => it.volume))

/-- The non-NULL values of the `cost` column across a list of join rows. -/
def rowCosts (rows : List JoinRow) : List ℚ :=
  rows.filterMap (fun r => r.item.map (fun it => it.cost))

/-- One row of the summary result set (lines 322-331). -/
structure SummaryRow where
  ship_name : String
  operation_count : Nat
  total_volume : Option ℚ
  total_cost : Option ℚ
  pollutant_types : List String
  first_operation : Option Int
  last_operation : Option Int
deriving DecidableEq

/-- The aggregates of one summary group.  `COUNT(Operation.id)` counts the
non-NULL occurrences of the column across the group rows (one per join
row, not per distinct operation); `SUM`/`MIN`/`MAX` ignore NULLs and give
NULL on an all-NULL column; `group_concat(distinct)` collapses duplicate
pollutant names (modelled as the deduplicated name list; SQLite leaves its
order unspecified). -/
def summaryRow (db : DB) (cutoff : Int) (s : Ship) : SummaryRow :=
  let rows := shipGroupRows db cutoff s
  { ship_name := s.name
    operation_count := (rows.filterMap (fun r => r.op)).length
    total_volume := sqlSumQ (rowVolumes rows)
    total_cost := sqlSumQ (rowCosts rows)
    pollutant_types := (rows.filterMap (fun r => r.poll.map (fun p => p.name))).dedup
    first_operation := sqlMinI (rows.filterMap (fun r => r.op.map (fun o => o.date)))
    last_operation := sqlMaxI (rows.filterMap (fun r => r.op.map (fun o => o.date))) }

/-- `ORDER BY Ship.name`. -/
def shipNameLE (a b : Ship) : Prop := strLeb a.name b.name = true

instance : DecidableRel shipNameLE :=
  fun a b => inferInstanceAs (Decidable (strLeb a.name b.name = true))

/-- The summary result set (lines 322-339): the `WHERE` filter runs before
`GROUP BY`, so a ship none of whose join rows has an operation dated on or
before the cutoff produces no group and hence no row. -/
def summary_results (db : DB) (cutoff : Int) : List SummaryRow :=
  ((List.insertionSort shipNameLE db.ships).filter
      (fun s => !(shipGroupRows db cutoff s).isEmpty)).map (summaryRow db cutoff)

/-- The breakdown query's extra filter
`(OperationPollutant.volume > 0) | (OperationPollutant.cost > 0)`:
NULL line-item columns compare as NULL, dropping the row. -/
def itemQual (it : OperationPollutant) : Bool :=
  decide (0 < it.volume) || decide (0 < it.cost)

/-- Conjunction of both `WHERE` filters of the breakdown query. -/
def rowQual (cutoff : Int) (r : JoinRow) : Bool :=
  rowDateOk cutoff r &&
    match r.item with
    | some it => itemQual it
    | none => false

/-- The join rows surviving the breakdown query's filters. -/
def breakdownSrc (db : DB) (cutoff : Int) : List JoinRow :=
  (joinAll db).filter (rowQual cutoff)

/-- `GROUP BY Ship.name, Pollutant.name` key of a join row (the pollutant
name is NULL for a dangling pollutant reference). -/
def rowKey (r : JoinRow) : String × Option String :=
  (r.ship.name, r.poll.map (fun p => p.name))

/-- `ORDER BY Ship.name, Pollutant.name` on group keys; SQL sorts NULLs
first in ascending order. -/
def keyLEb (a b : String × Option String) : Bool :=
  if a.1 = b.1 then
    match a.2, b.2 with
    | none, _ => true
    | some _, none => false
    | some x, some y => strLeb x y
  else strLeb a.1 b.1

/-- `keyLEb` as a relation for the sort. -/
def keyLE (a b : String × Option String) : Prop := keyLEb a b = true

instance : DecidableRel keyLE :=
  fun a b => inferInstanceAs (Decidable (keyLEb a b = true))

/-- The distinct group keys of the breakdown query, in output order. -/
def breakdownKeys (db : DB) (cutoff : Int) : List (String × Option String) :=
  List.insertionSort keyLE (((breakdownSrc db cutoff).map rowKey).dedup)

/-- The rows of one breakdown group. -/
def breakdownGroup (db : DB) (cutoff : Int) (k : String × Option String) :
    List JoinRow :=
  (breakdownSrc db cutoff).filter (fun r => decide (rowKey r = k))

/-- One row of the breakdown result set (lines 341-355).  Every group row
has a non-NULL line item (the volume/cost filter discards NULLs) and every
group is nonempty, so the sums are plain rationals. -/
structure BreakdownRow where
  ship_name : String
  pollutant_name : Option String
  total_volume : ℚ
  total_cost : ℚ
deriving DecidableEq

/-- The breakdown result set (lines 341-356). -/
def pollutants_results (db : DB) (cutoff : Int) : List BreakdownRow :=
  (breakdownKeys db cutoff).map (fun k =>
    { ship_name := k.1
      pollutant_name := k.2
      total_volume := (rowVolumes (breakdownGroup db cutoff k)).sum
      total_cost := (rowCosts (breakdownGroup db cutoff k)).sum })

/-! ## Concrete store states and forms

Small database states and form submissions on which the witness and
counterexample theorems below instantiate the general results. -/

def shipA : Ship := ⟨1, "A"⟩

def shipB : Ship := ⟨2, "B"⟩

def pWater : Pollutant := ⟨1, "Water"⟩

def pSludge : Pollutant := ⟨2, "Sludge"⟩

def pGarbage : Pollutant := ⟨3, "Garbage"⟩

/-- An operation of ship `A` dated before the analytics cutoff. -/
def opOne : Operation := ⟨1, 1, 1, 1, 20250101, false⟩

/-- An operation of ship `B` dated after the analytics cutoff. -/
def opTwo : Operation := ⟨2, 2, 1, 1, 20260101, false⟩

def itemOne : OperationPollutant := ⟨1, 1, 1, 5, 10⟩

def itemTwo : OperationPollutant := ⟨2, 1, 2, 0, 0⟩

/-- Two ships, two pollutants, two operations (one beyond the cutoff),
two line items on the first operation. -/
def exDB : DB := ⟨[shipA, shipB], [pWater, pSludge], [opOne, opTwo], [itemOne, itemTwo]⟩

/-- A ship with no operations next to a ship whose only operation is dated
after the cutoff: the summary should list both with zero stats. -/
def exDBempty : DB := ⟨[shipA, shipB], [pWater], [opTwo], []⟩

/-- One ship with one operation carrying no line items. -/
def exDBnoItems : DB := ⟨[shipA], [pWater], [opOne], []⟩

/-- Three pollutants and no operations, for exercising the write handlers. -/
def exDBwrite : DB := ⟨[shipA], [pWater, pSludge, pGarbage], [], []⟩

/-- Submission: all-zero values for pollutant 1, an unparsable volume for
pollutant 2, and a positive volume for pollutant 3. -/
def exFormMixed : Form :=
  [("volume_1", "0"), ("cost_1", "0"), ("volume_2", "x"), ("cost_2", "7"),
   ("volume_3", "4"), ("cost_3", "0")]

/-- Submission with a positive volume and a negative cost for pollutant 1. -/
def exFormNeg : Form := [("volume_1", "5"), ("cost_1", "-3")]

/-- Submission carrying only the volume field for pollutant 1. -/
def exFormHalf : Form := [("volume_1", "5")]

/-! ## Helper lemmas -/

theorem charListLtb_asymm : ∀ (a b : List Char),
    charListLtb a b = true → charListLtb b a = false := by
  intro a
  induction a with
  | nil =>
    intro b h
    cases b with
    | nil => simp [charListLtb] at h
    | cons y ys => simp [charListLtb]
  | cons x xs ih =>
    intro b h
    cases b with
    | nil => simp [charListLtb] at h
    | cons y ys =>
      simp only [charListLtb, Bool.or_eq_true, Bool.and_eq_true, decide_eq_true_eq] at h
      simp only [charListLtb, Bool.or_eq_false_iff, Bool.and_eq_false_iff,
        decide_eq_false_iff_not, decide_eq_false_iff_not]
      rcases h with h | ⟨rfl, h⟩
      · exact ⟨lt_asymm h, Or.inl (ne_of_gt h)⟩
      · exact ⟨lt_irrefl x, Or.inr (ih ys h)⟩

theorem charListLtb_trans : ∀ (a b c : List Char),
    charListLtb a b = true → charListLtb b c = true → charListLtb a c = true := by
  intro a
  induction a with
  | nil =>
    intro b c hab hbc
    cases b with
    | nil => simp [charListLtb] at hab
    | cons y ys =>
      cases c with
      | nil => simp [charListLtb] at hbc
      | cons z zs => simp [charListLtb]
  | cons x xs ih =>
    intro b c hab hbc
    cases b with
    | nil => simp [charListLtb] at hab
    | cons y ys =>
      cases c with
      | nil => simp [charListLtb] at hbc
      | cons z zs =>
        simp only [charListLtb, Bool.or_eq_true, Bool.and_eq_true, decide_eq_true_eq] at hab hbc ⊢
        rcases hab with hab | ⟨rfl, hab⟩
        · rcases hbc with hbc | ⟨rfl, hbc⟩
          · exact Or.inl (lt_trans hab hbc)
          · exact Or.inl hab
        · rcases hbc with hbc | ⟨rfl, hbc⟩
          · exact Or.inl hbc
          · exact Or.inr ⟨rfl, ih ys zs hab hbc⟩

theorem charListLtb_conn : ∀ (a b : List Char),
    charListLtb a b = false → charListLtb b a = false → a = b := by
  intro a
  induction a with
  | nil =>
    intro b hab _
    cases b with
    | nil => rfl
    | cons y ys => simp [charListLtb] at hab
  | cons x xs ih =>
    intro b hab hba
    cases b with
    | nil => simp [charListLtb] at hba
    | cons y ys =>
      simp only [charListLtb, Bool.or_eq_false_iff, Bool.and_eq_false_iff,
        decide_eq_false_iff_not] at hab hba
      obtain ⟨hxy, hab2⟩ := hab
      obtain ⟨hyx, hba2⟩ := hba
      obtain rfl : x = y := le_antisymm (le_of_not_lt hyx) (le_of_not_lt hxy)
      rcases hab2 with h | hab3
      · exact absurd rfl h
      · rcases hba2 with h | hba3
        · exact absurd rfl h
        · rw [ih ys hab3 hba3]

theorem strLeb_total (a b : String) : strLeb a b = true ∨ strLeb b a = true := by
  unfold strLeb strLtb
  by_cases h : charListLtb b.toList a.toList = true
  · exact Or.inr (by rw [charListLtb_asymm _ _ h]; rfl)
  · exact Or.inl (by rw [Bool.not_eq_true] at h; rw [h]; rfl)

theorem strLeb_trans {a b c : String} (hab : strLeb a b = true)
    (hbc : strLeb b c = true) : strLeb a c = true := by
  unfold strLeb strLtb at hab hbc ⊢
  rw [Bool.not_eq_true'] at hab hbc ⊢
  by_cases hca : charListLtb c.toList a.toList = true
  · by_cases hbc2 : charListLtb b.toList c.toList = true
    · rw [charListLtb_trans _ _ _ hbc2 hca] at hab
      exact absurd hab (by simp)
    · rw [Bool.not_eq_true] at hbc2
      have hcb : c.toList = b.toList := charListLtb_conn _ _ hbc hbc2
      rw [hcb, hab] at hca
      exact absurd hca (by simp)
  · rw [Bool.not_eq_true] at hca
    exact hca

theorem strLeb_conn {a b : String} (hab : strLeb a b = true)
    (hba : strLeb b a = true) : a = b := by
  unfold strLeb strLtb at hab hba
  rw [Bool.not_eq_true'] at hab hba
  exact String.ext (charListLtb_conn _ _ hba hab)

theorem pairwise_keyLE_insertionSort (l : List (String × Option String)) :
    (List.insertionSort keyLE l).Pairwise keyLE := by
  haveI htot : IsTotal (String × Option String) keyLE := by
    constructor
    intro a b
    unfold keyLE keyLEb
    by_cases h : a.1 = b.1
    · rw [if_pos h, if_pos h.symm]
      cases ha : a.2 <;> cases hb : b.2
      · exact Or.inl rfl
      · exact Or.inl rfl
      · exact Or.inr rfl
      · exact strLeb_total _ _
    · rw [if_neg h, if_neg (Ne.symm h)]
      exact strLeb_total _ _
  haveI htr : IsTrans (String × Option String) keyLE := by
    constructor
    intro a b c hab hbc
    unfold keyLE keyLEb at hab hbc ⊢
    by_cases hab1 : a.1 = b.1
    · by_cases hbc1 : b.1 = c.1
      · rw [if_pos hab1] at hab
        rw [if_pos hbc1] at hbc
        rw [if_pos (hab1.trans hbc1)]
        cases ha : a.2 with
        | none => rfl
        | some x =>
          rw [ha] at hab
          cases hb : b.2 with
          | none => rw [hb] at hab; exact absurd hab (by simp)
          | some y =>
            rw [hb] at hab hbc
            cases hc : c.2 with
            | none => rw [hc] at hbc; exact absurd hbc (by simp)
            | some z =>
              rw [hc] at hbc
              dsimp only at hab hbc ⊢
              exact strLeb_trans hab hbc
      · rw [if_neg hbc1] at hbc
        rw [if_neg (fun hac => hbc1 (hab1.symm.trans hac)), hab1]
        exact hbc
    · by_cases hbc1 : b.1 = c.1
      · rw [if_neg hab1] at hab
        rw [if_neg (fun hac => hab1 (hac.trans hbc1.symm)), ← hbc1]
        exact hab
      · rw [if_neg hab1] at hab
        rw [if_neg hbc1] at hbc
        by_cases hac : a.1 = c.1
        · exfalso
          apply hab1
          apply strLeb_conn hab
          rw [← hac] at hbc
          exact hbc
        · rw [if_neg hac]
          exact strLeb_trans hab hbc
  exact List.sorted_insertionSort keyLE l

theorem detailTotalCost_eq_sum (db : DB) (opId : Nat) :
    detailTotalCost db opId = ((opItems db opId).map OperationPollutant.cost).sum := by
  unfold detailTotalCost sqlSumCost
  by_cases h : ((opItems db opId).map OperationPollutant.cost).isEmpty
  · rw [if_pos h, List.isEmpty_iff.mp h]
    rfl
  · rw [if_neg h]
    rfl

theorem mem_buildLineItems {ps : List Pollutant} {fd : Form} {opId : Nat}
    {it : OperationPollutant} :
    it ∈ buildLineItems ps fd opId ↔
      ∃ p ∈ ps, formHasKey fd (volume_key p) = true ∧ formHasKey fd (cost_key p) = true ∧
        ∃ v c, getFloatField fd (volume_key p) = some v ∧
          getFloatField fd (cost_key p) = some c ∧ (0 < v ∨ 0 < c) ∧
          it = ⟨0, opId, p.id, v, c⟩ := by
  unfold buildLineItems
  rw [List.mem_filterMap]
  constructor
  · rintro ⟨p, hp, hsome⟩
    refine ⟨p, hp, ?_⟩
    by_cases hk : (formHasKey fd (volume_key p) && formHasKey fd (cost_key p)) = true
    case neg => rw [if_neg hk] at hsome; exact absurd hsome (by simp)
    · rw [if_pos hk] at hsome
      obtain ⟨hk1, hk2⟩ := Bool.and_eq_true_iff.mp hk
      refine ⟨hk1, hk2, ?_⟩
      cases hv : getFloatField fd (volume_key p) with
      | none => rw [hv] at hsome; cases hc : getFloatField fd (cost_key p) <;>
          rw [hc] at hsome <;> exact absurd hsome (by simp)
      | some v =>
        cases hc : getFloatField fd (cost_key p) with
        | none => rw [hv, hc] at hsome; exact absurd hsome (by simp)
        | some c =>
          rw [hv, hc] at hsome
          dsimp only at hsome
          by_cases hpos : 0 < v ∨ 0 < c
          · rw [if_pos hpos] at hsome
            exact ⟨v, c, rfl, rfl, hpos, (Option.some_inj.mp hsome).symm⟩
          · rw [if_neg hpos] at hsome
            exact absurd hsome (by simp)
  · rintro ⟨p, hp, hk1, hk2, v, c, hv, hc, hpos, rfl⟩
    refine ⟨p, hp, ?_⟩
    rw [if_pos (by rw [hk1, hk2]; rfl), hv, hc]
    dsimp only
    rw [if_pos hpos]

theorem volume_key_congr {p q : Pollutant} (h : q.id = p.id) :
    volume_key q = volume_key p := by
  unfold volume_key
  rw [h]

theorem cost_key_congr {p q : Pollutant} (h : q.id = p.id) :
    cost_key q = cost_key p := by
  unfold cost_key
  rw [h]

theorem ship_of_mem_joinShip {db : DB} {s : Ship} {r : JoinRow}
    (h : r ∈ joinShip db s) : r.ship = s := by
  unfold joinShip at h
  by_cases he : (db.operations.filter (fun o => o.ship_id == s.id)).isEmpty
  · rw [if_pos he] at h
    rw [List.mem_singleton.mp h]
  · rw [if_neg he] at h
    obtain ⟨o, _, hr⟩ := List.mem_flatMap.mp h
    by_cases hi : (opItems db o.id).isEmpty
    · rw [if_pos hi] at hr
      rw [List.mem_singleton.mp hr]
    · rw [if_neg hi] at hr
      obtain ⟨it, _, hr2⟩ := List.mem_map.mp hr
      rw [← hr2]

theorem mem_joinShip_iff {db : DB} {s : Ship} {r : JoinRow} :
    r ∈ joinShip db s ↔
      (r = ⟨s, none, none, none⟩ ∧
        db.operations.filter (fun o => o.ship_id == s.id) = [])
      ∨ ∃ o, o ∈ db.operations ∧ o.ship_id = s.id ∧
          ((r = ⟨s, some o, none, none⟩ ∧ opItems db o.id = [])
            ∨ ∃ it, it ∈ opItems db o.id ∧
                r = ⟨s, some o, some it, lookupPollutant db it.pollutant_id⟩) := by
  unfold joinShip
  by_cases he : (db.operations.filter (fun o => o.ship_id == s.id)).isEmpty
  · rw [if_pos he]
    have hnil := List.isEmpty_iff.mp he
    constructor
    · intro h
      exact Or.inl ⟨List.mem_singleton.mp h, hnil⟩
    · rintro (⟨rfl, _⟩ | ⟨o, ho, hsid, _⟩)
      · exact List.mem_singleton.mpr rfl
      · exfalso
        have : o ∈ db.operations.filter (fun o => o.ship_id == s.id) :=
          List.mem_filter.mpr ⟨ho, by simp [hsid]⟩
        rw [hnil] at this
        cases this
  · rw [if_neg he]
    rw [List.mem_flatMap]
    constructor
    · rintro ⟨o, ho, hr⟩
      obtain ⟨ho2, hsid⟩ := List.mem_filter.mp ho
      refine Or.inr ⟨o, ho2, by simpa using hsid, ?_⟩
      by_cases hi : (opItems db o.id).isEmpty
      · rw [if_pos hi] at hr
        exact Or.inl ⟨List.mem_singleton.mp hr, List.isEmpty_iff.mp hi⟩
      · rw [if_neg hi] at hr
        obtain ⟨it, hit, hr2⟩ := List.mem_map.mp hr
        exact Or.inr ⟨it, hit, hr2.symm⟩
    · rintro (⟨rfl, hnil⟩ | ⟨o, ho, hsid, hcase⟩)
      · rw [hnil] at he
        exact absurd rfl he
      · refine ⟨o, List.mem_filter.mpr ⟨ho, by simp [hsid]⟩, ?_⟩
        rcases hcase with ⟨rfl, hnil⟩ | ⟨it, hit, rfl⟩
        · rw [if_pos (List.isEmpty_iff.mpr hnil)]
          exact List.mem_singleton.mpr rfl
        · rw [if_neg (by simp [List.isEmpty_iff]; exact List.ne_nil_of_mem hit)]
          exact List.mem_map.mpr ⟨it, hit, rfl⟩

theorem mem_breakdownSrc_iff {db : DB} {cutoff : Int} {r : JoinRow} :
    r ∈ breakdownSrc db cutoff ↔
      ∃ s ∈ db.ships, ∃ o, o ∈ db.operations ∧ o.ship_id = s.id ∧
        o.date ≤ cutoff ∧
        ∃ it, it ∈ db.operation_pollutants ∧ it.operation_id = o.id ∧
          (0 < it.volume ∨ 0 < it.cost) ∧
          r = ⟨s, some o, some it, lookupPollutant db it.pollutant_id⟩ := by
  unfold breakdownSrc joinAll
  rw [List.mem_filter, List.mem_flatMap]
  constructor
  · rintro ⟨⟨s, hs, hr⟩, hq⟩
    rcases mem_joinShip_iff.mp hr with ⟨rfl, _⟩ | ⟨o, ho, hsid, hcase⟩
    · exact absurd hq (by simp [rowQual, rowDateOk])
    · rcases hcase with ⟨rfl, _⟩ | ⟨it, hit, rfl⟩
      · exact absurd hq (by simp [rowQual, rowDateOk])
      · obtain ⟨hdate, hpos⟩ :
            o.date ≤ cutoff ∧ (0 < it.volume ∨ 0 < it.cost) := by
          simpa [rowQual, rowDateOk, itemQual] using hq
        obtain ⟨hitdb, hitop⟩ := List.mem_filter.mp hit
        exact ⟨s, hs, o, ho, hsid, hdate, it, hitdb, by simpa using hitop, hpos, rfl⟩
  · rintro ⟨s, hs, o, ho, hsid, hdate, it, hitdb, hitop, hpos, rfl⟩
    refine ⟨⟨s, hs, mem_joinShip_iff.mpr (Or.inr ⟨o, ho, hsid,
      Or.inr ⟨it, List.mem_filter.mpr ⟨hitdb, by simp [hitop]⟩, rfl⟩⟩)⟩, ?_⟩
    simp [rowQual, rowDateOk, itemQual, hdate, hpos]

theorem lookupPollutant_mem {db : DB} {pid : Nat} {q : Pollutant}
    (h : lookupPollutant db pid = some q) : q ∈ db.pollutants ∧ q.id = pid := by
  refine ⟨List.mem_of_find?_eq_some h, ?_⟩
  have := List.find?_some h
  simpa using this

theorem lookupPollutant_self {db : DB}
    (hpi : (db.pollutants.map Pollutant.id).Nodup) {p : Pollutant}
    (hp : p ∈ db.pollutants) : lookupPollutant db p.id = some p := by
  have hsome : (db.pollutants.find? (fun q => q.id == p.id)).isSome = true :=
    List.find?_isSome.mpr ⟨p, hp, by simp⟩
  obtain ⟨q, hq⟩ := Option.isSome_iff_exists.mp hsome
  obtain ⟨hqmem, hqid⟩ := lookupPollutant_mem hq
  unfold lookupPollutant
  rw [hq]
  congr 1
  exact List.inj_on_of_nodup_map hpi hqmem hp hqid

theorem sqlSumQ_getD (l : List ℚ) : (sqlSumQ l).getD 0 = l.sum := by
  unfold sqlSumQ
  by_cases h : l.isEmpty
  · rw [if_pos h, List.isEmpty_iff.mp h]
    rfl
  · rw [if_neg h]
    rfl

theorem sum_rowCosts_eq_map (l : List JoinRow) :
    (rowCosts l).sum
      = (l.map (fun r => (r.item.map OperationPollutant.cost).getD 0)).sum := by
  unfold rowCosts
  induction l with
  | nil => rfl
  | cons r l ih => cases hi : r.item <;> simp [List.filterMap_cons, hi, ih]

theorem sum_map_ite_single {κ : Type} [DecidableEq κ] (x : κ) (c : ℚ) :
    ∀ (ks : List κ), ks.Nodup → x ∈ ks →
      (ks.map (fun k => if x = k then c else 0)).sum = c := by
  intro ks
  induction ks with
  | nil => intro _ h; cases h
  | cons k ks ih =>
    intro hnd hmem
    rw [List.map_cons, List.sum_cons]
    rcases List.mem_cons.mp hmem with rfl | hmem2
    · rw [if_pos rfl]
      have hzero : (ks.map (fun j => if x = j then c else 0)).sum = 0 := by
        apply List.sum_eq_zero
        intro y hy
        obtain ⟨j, hj, rfl⟩ := List.mem_map.mp hy
        rw [if_neg]
        intro he
        exact (List.nodup_cons.mp hnd).1 (he ▸ hj)
      rw [hzero, add_zero]
    · have hxk : ¬ x = k := by
        rintro rfl
        exact (List.nodup_cons.mp hnd).1 hmem2
      rw [if_neg hxk, ih (List.nodup_cons.mp hnd).2 hmem2, zero_add]

theorem sum_map_filter_partition {α κ : Type} [DecidableEq κ]
    (key : α → κ) (f : α → ℚ) :
    ∀ (l : List α) (ks : List κ), ks.Nodup → (∀ a ∈ l, key a ∈ ks) →
      (ks.map (fun k => ((l.filter (fun a => decide (key a = k))).map f).sum)).sum
        = (l.map f).sum := by
  intro l
  induction l with
  | nil =>
    intro ks _ _
    simp
  | cons a l ih =>
    intro ks hnd hcov
    have hstep : ∀ k : κ,
        (((a :: l).filter (fun b => decide (key b = k))).map f).sum
          = (if key a = k then f a else 0)
            + ((l.filter (fun b => decide (key b = k))).map f).sum := by
      intro k
      rw [List.filter_cons]
      by_cases h : key a = k
      · rw [if_pos (by simp [h]), if_pos h, List.map_cons, List.sum_cons]
      · rw [if_neg (by simp [h]), if_neg h, zero_add]
    calc (ks.map (fun k => (((a :: l).filter
            (fun b => decide (key b = k))).map f).sum)).sum
        = (ks.map (fun k => (if key a = k then f a else 0)
            + ((l.filter (fun b => decide (key b = k))).map f).sum)).sum :=
          congrArg List.sum (List.map_congr_left (fun k _ => hstep k))
      _ = (ks.map (fun k => if key a = k then f a else 0)).sum
            + (ks.map (fun k =>
                ((l.filter (fun b => decide (key b = k))).map f).sum)).sum :=
          List.sum_map_add
      _ = f a + (l.map f).sum := by
          rw [sum_map_ite_single (key a) (f a) ks hnd (hcov a (List.mem_cons_self a l)),
            ih ks hnd (fun b hb => hcov b (List.mem_cons_of_mem a hb))]
      _ = ((a :: l).map f).sum := by rw [List.map_cons, List.sum_cons]

theorem sum_rowCosts_joinShip_filter (db : DB) (cutoff : Int) (s : Ship)
    (P : JoinRow → Bool) (q : OperationPollutant → Bool)
    (hP : ∀ (o : Operation) (it : OperationPollutant) (pl : Option Pollutant),
      P ⟨s, some o, some it, pl⟩ = (decide (o.date ≤ cutoff) && q it)) :
    (rowCosts ((joinShip db s).filter P)).sum
      = ((db.operations.filter (fun o => o.ship_id == s.id)).map (fun o =>
          if o.date ≤ cutoff
          then (((opItems db o.id).filter q).map OperationPollutant.cost).sum
          else 0)).sum := by
  unfold joinShip
  by_cases he : (db.operations.filter (fun o => o.ship_id == s.id)).isEmpty
  · rw [if_pos he, List.isEmpty_iff.mp he, List.map_nil]
    rw [List.filter_cons]
    by_cases hp : P ⟨s, none, none, none⟩ = true
    · rw [if_pos hp]
      rfl
    · rw [if_neg hp]
      rfl
  · rw [if_neg he]
    unfold rowCosts
    clear he
    generalize db.operations.filter (fun o => o.ship_id == s.id) = ops
    induction ops with
    | nil => rfl
    | cons o ops ih =>
      rw [List.flatMap_cons, List.filter_append, List.filterMap_append,
        List.sum_append, List.map_cons, List.sum_cons, ih]
      have hhead : (List.filterMap (fun r => Option.map OperationPollutant.cost r.item)
          ((if (opItems db o.id).isEmpty then [(⟨s, some o, none, none⟩ : JoinRow)]
            else (opItems db o.id).map (fun it =>
              ⟨s, some o, some it, lookupPollutant db it.pollutant_id⟩)).filter P)).sum
          = if o.date ≤ cutoff
            then (((opItems db o.id).filter q).map OperationPollutant.cost).sum
            else 0 := by
        by_cases hi : (opItems db o.id).isEmpty
        · rw [if_pos hi, List.isEmpty_iff.mp hi]
          rw [List.filter_cons]
          by_cases hp : P ⟨s, some o, none, none⟩ = true
          · rw [if_pos hp]
            simp
          · rw [if_neg hp]
            simp
        · rw [if_neg hi, List.filter_map, List.filterMap_map]
          have hcomp : ((fun r => Option.map OperationPollutant.cost r.item) ∘
              (fun it => (⟨s, some o, some it,
                lookupPollutant db it.pollutant_id⟩ : JoinRow)))
              = fun it => some it.cost := rfl
          rw [hcomp]
          have hfil : (opItems db o.id).filter (P ∘ (fun it =>
                (⟨s, some o, some it, lookupPollutant db it.pollutant_id⟩ : JoinRow)))
              = if o.date ≤ cutoff then (opItems db o.id).filter q else [] := by
            by_cases hd : o.date ≤ cutoff
            · rw [if_pos hd]
              apply List.filter_congr
              intro it _
              show P ⟨s, some o, some it, lookupPollutant db it.pollutant_id⟩ = q it
              rw [hP, decide_eq_true hd, Bool.true_and]
            · rw [if_neg hd]
              apply List.filter_eq_nil_iff.mpr
              intro it _
              show ¬ P ⟨s, some o, some it, lookupPollutant db it.pollutant_id⟩ = true
              rw [hP, decide_eq_false hd, Bool.false_and]
              exact Bool.false_ne_true
          rw [hfil]
          by_cases hd : o.date ≤ cutoff
          · rw [if_pos hd, if_pos hd]
            rw [show (fun it : OperationPollutant => some it.cost)
              = some ∘ OperationPollutant.cost from rfl, List.filterMap_eq_map]
          · rw [if_neg hd, if_neg hd]
            rfl
      rw [hhead]

theorem summary_total_cost_getD (db : DB) (cutoff : Int) (s : Ship) :
    (summaryRow db cutoff s).total_cost.getD 0
      = ((db.operations.filter (fun o => o.ship_id == s.id)).map (fun o =>
          if o.date ≤ cutoff
          then ((opItems db o.id).map OperationPollutant.cost).sum
          else 0)).sum := by
  show (sqlSumQ (rowCosts (shipGroupRows db cutoff s))).getD 0 = _
  rw [sqlSumQ_getD]
  unfold shipGroupRows
  rw [sum_rowCosts_joinShip_filter db cutoff s (rowDateOk cutoff) (fun _ => true)
    (fun o it pl => by simp [rowDateOk])]
  apply congrArg List.sum
  apply List.map_congr_left
  intro o _
  rw [List.filter_true]

theorem breakdownSrc_filter_name (db : DB) (cutoff : Int)
    (hsn : (db.ships.map Ship.name).Nodup) (s : Ship) (hs : s ∈ db.ships) :
    (breakdownSrc db cutoff).filter (fun r => decide (r.ship.name = s.name))
      = (joinShip db s).filter (rowQual cutoff) := by
  unfold breakdownSrc joinAll
  rw [List.filter_filter, List.filter_flatMap]
  have key : ∀ (l : List Ship), (l.map Ship.name).Nodup → s ∈ l →
      (l.flatMap (fun s2 => (joinShip db s2).filter
        (fun r => decide (r.ship.name = s.name) && rowQual cutoff r)))
      = (joinShip db s).filter (rowQual cutoff) := by
    intro l
    induction l with
    | nil => intro _ h; cases h
    | cons a l ih =>
      intro hnd hmem
      obtain ⟨hhead, htail⟩ : a.name ∉ l.map Ship.name ∧ (l.map Ship.name).Nodup := by
        rw [List.map_cons] at hnd
        exact List.nodup_cons.mp hnd
      rw [List.flatMap_cons]
      rcases List.mem_cons.mp hmem with rfl | hmem2
      · have h1 : (joinShip db s).filter
            (fun r => decide (r.ship.name = s.name) && rowQual cutoff r)
            = (joinShip db s).filter (rowQual cutoff) := by
          apply List.filter_congr
          intro r hr
          have : decide (r.ship.name = s.name) = true := by
            rw [ship_of_mem_joinShip hr]
            exact decide_eq_true rfl
          rw [this, Bool.true_and]
        have h2 : (l.flatMap (fun s2 => (joinShip db s2).filter
            (fun r => decide (r.ship.name = s.name) && rowQual cutoff r))) = [] := by
          apply List.flatMap_eq_nil_iff.mpr
          intro s2 hs2
          apply List.filter_eq_nil_iff.mpr
          intro r hr
          have hname2 : s2.name ≠ s.name := by
            intro heq
            exact hhead (heq ▸ List.mem_map.mpr ⟨s2, hs2, rfl⟩)
          rw [ship_of_mem_joinShip hr, decide_eq_false hname2, Bool.false_and]
          exact Bool.false_ne_true
        rw [h1, h2, List.append_nil]
      · have hname2 : a.name ≠ s.name := by
          intro heq
          exact hhead (heq.symm ▸ List.mem_map.mpr ⟨s, hmem2, rfl⟩)
        have h1 : (joinShip db a).filter
            (fun r => decide (r.ship.name = s.name) && rowQual cutoff r) = [] := by
          apply List.filter_eq_nil_iff.mpr
          intro r hr
          rw [ship_of_mem_joinShip hr, decide_eq_false hname2, Bool.false_and]
          exact Bool.false_ne_true
        rw [h1, List.nil_append]
        exact ih htail hmem2
  exact key db.ships hsn hs

theorem sum_map_cost_filter_of_zero (q : OperationPollutant → Bool) :
    ∀ (its : List OperationPollutant), (∀ it ∈ its, q it = false → it.cost = 0) →
      ((its.filter q).map OperationPollutant.cost).sum
        = (its.map OperationPollutant.cost).sum := by
  intro its
  induction its with
  | nil => intro _; rfl
  | cons it its ih =>
    intro h
    rw [List.filter_cons, List.map_cons, List.sum_cons]
    by_cases hq : q it = true
    · rw [if_pos hq, List.map_cons, List.sum_cons,
        ih (fun x hx hxf => h x (List.mem_cons_of_mem _ hx) hxf)]
    · rw [if_neg hq, ih (fun x hx hxf => h x (List.mem_cons_of_mem _ hx) hxf),
        h it (List.mem_cons_self it its) (Bool.not_eq_true _ ▸ hq), zero_add]

theorem mem_summary_results {db : DB} {cutoff : Int} {r : SummaryRow} :
    r ∈ summary_results db cutoff ↔
      ∃ s ∈ db.ships, shipGroupRows db cutoff s ≠ [] ∧ r = summaryRow db cutoff s := by
  unfold summary_results
  rw [List.mem_map]
  constructor
  · rintro ⟨s, hsf, rfl⟩
    obtain ⟨hsort, hne⟩ := List.mem_filter.mp hsf
    refine ⟨s, (List.mem_insertionSort shipNameLE).mp hsort, ?_, rfl⟩
    simpa [List.isEmpty_eq_false] using hne
  · rintro ⟨s, hmem, hne, rfl⟩
    refine ⟨s, List.mem_filter.mpr ⟨(List.mem_insertionSort shipNameLE).mpr hmem, ?_⟩, rfl⟩
    simpa [List.isEmpty_eq_false] using hne

/-! ## Claims about the cost rollup and the write handlers -/

/-- C4: the total cost returned by `GET /operation/{id}` is the sum of the
operation's line-item costs, is `0.0` (not null) for an operation with no
line items, and coincides with the value computed for the same operation
by the list endpoint — the two call sites evaluate the same formula. -/
theorem rollup_detail_consistent_with_list (db : DB) (oid : Nat)
    (op : Operation) (its : List OperationPollutant) (tc : ℚ)
    (h : get_operation db oid = some (op, its, tc)) :
    tc = (its.map OperationPollutant.cost).sum ∧
      tc = listTotalCost db oid ∧ (its = [] → tc = 0) := by
  unfold get_operation at h
  cases hf : db.operations.find? (fun o => o.id == oid) with
  | none => rw [hf] at h; exact absurd h (by simp)
  | some o =>
    rw [hf] at h
    obtain ⟨ho, hits, htc⟩ : o = op ∧ opItems db o.id = its ∧ detailTotalCost db o.id = tc := by
      have := Option.some_inj.mp h
      exact ⟨congrArg Prod.fst this, congrArg (fun x => x.2.1) this,
        congrArg (fun x => x.2.2) this⟩
    have hid : o.id = oid := by
      have := List.find?_some hf
      simpa using this
    refine ⟨?_, ?_, ?_⟩
    · rw [← htc, ← hits, detailTotalCost_eq_sum]
    · rw [← htc, hid]
      rfl
    · intro hnil
      rw [← htc, detailTotalCost_eq_sum, hits, hnil]
      rfl

/-- C4 witness: the detail view of operation 2 of `exDB` (an operation with
no line items) reports total cost `0`. -/
theorem rollup_detail_consistent_with_list_witness :
    get_operation exDB 2 = some (opTwo, [], 0) ∧
      ((0 : ℚ) = (([] : List OperationPollutant).map OperationPollutant.cost).sum ∧
        (0 : ℚ) = listTotalCost exDB 2 ∧ (([] : List OperationPollutant) = [] → (0 : ℚ) = 0)) :=
  ⟨by decide, rollup_detail_consistent_with_list exDB 2 opTwo [] 0 (by decide)⟩

/-- C10: an operation persisted by `POST /create` always has
`has_documents = False` — the handler never reads such a field, and the
column default applies; only `POST /edit/{id}` (which passes the submitted
flag through) can set it. -/
theorem create_has_documents_false (db : DB) (newId s po c : Nat) (d : Int) (fd : Form) :
    (create_operation db newId s po c d fd).operation.has_documents = false := rfl

/-- C7: a line item is persisted by `POST /create` only with a strictly
positive volume or cost; an all-zero submission for a substance yields no
row for it; a substance whose value fails parsing is skipped while every
other substance with well-formed positive values is still persisted. -/
theorem create_line_item_policy (db : DB) (newId s po c : Nat) (d : Int) (fd : Form) :
    (∀ it ∈ (create_operation db newId s po c d fd).items, 0 < it.volume ∨ 0 < it.cost)
    ∧ (∀ p ∈ db.pollutants, getFloatField fd (volume_key p) = some 0 →
        getFloatField fd (cost_key p) = some 0 →
        ∀ it ∈ (create_operation db newId s po c d fd).items, it.pollutant_id ≠ p.id)
    ∧ (∀ p ∈ db.pollutants,
        (getFloatField fd (volume_key p) = none ∨ getFloatField fd (cost_key p) = none) →
        ∀ it ∈ (create_operation db newId s po c d fd).items, it.pollutant_id ≠ p.id)
    ∧ (∀ p ∈ db.pollutants, formHasKey fd (volume_key p) = true →
        formHasKey fd (cost_key p) = true →
        ∀ v cq, getFloatField fd (volume_key p) = some v →
          getFloatField fd (cost_key p) = some cq → (0 < v ∨ 0 < cq) →
          ∃ it ∈ (create_operation db newId s po c d fd).items,
            it.pollutant_id = p.id ∧ it.volume = v ∧ it.cost = cq) := by
  refine ⟨?_, ?_, ?_, ?_⟩
  · intro it hit
    obtain ⟨q, _, _, _, v, cq, _, _, hpos, rfl⟩ := mem_buildLineItems.mp hit
    exact hpos
  · intro p _ h0v h0c it hit heq
    obtain ⟨q, _, _, _, v, cq, hv, hc, hpos, rfl⟩ := mem_buildLineItems.mp hit
    rw [volume_key_congr heq] at hv
    rw [cost_key_congr heq] at hc
    rw [h0v] at hv
    rw [h0c] at hc
    obtain rfl : (0 : ℚ) = v := Option.some_inj.mp hv
    obtain rfl : (0 : ℚ) = cq := Option.some_inj.mp hc
    exact hpos.elim (lt_irrefl 0) (lt_irrefl 0)
  · intro p _ hnone it hit heq
    obtain ⟨q, _, _, _, v, cq, hv, hc, _, rfl⟩ := mem_buildLineItems.mp hit
    rw [volume_key_congr heq] at hv
    rw [cost_key_congr heq] at hc
    cases hnone with
    | inl h => rw [h] at hv; exact absurd hv (by simp)
    | inr h => rw [h] at hc; exact absurd hc (by simp)
  · intro p hp hk1 hk2 v cq hv hc hpos
    exact ⟨⟨0, newId, p.id, v, cq⟩,
      mem_buildLineItems.mpr ⟨p, hp, hk1, hk2, v, cq, hv, hc, hpos, rfl⟩, rfl, rfl, rfl⟩

/-- C7 witness: on `exFormMixed`, pollutant 1 (zero/zero) gets no row,
pollutant 2 (unparsable volume) gets no row, pollutant 3 (volume `4`)
is persisted — instances of the four conjuncts. -/
theorem create_line_item_policy_witness :
    (∀ it ∈ (create_operation exDBwrite 9 1 1 1 0 exFormMixed).items,
        0 < it.volume ∨ 0 < it.cost)
    ∧ (pWater ∈ exDBwrite.pollutants ∧
        getFloatField exFormMixed (volume_key pWater) = some 0 ∧
        getFloatField exFormMixed (cost_key pWater) = some 0 ∧
        ∀ it ∈ (create_operation exDBwrite 9 1 1 1 0 exFormMixed).items,
          it.pollutant_id ≠ pWater.id)
    ∧ (pSludge ∈ exDBwrite.pollutants ∧
        getFloatField exFormMixed (volume_key pSludge) = none ∧
        ∀ it ∈ (create_operation exDBwrite 9 1 1 1 0 exFormMixed).items,
          it.pollutant_id ≠ pSludge.id)
    ∧ (∃ it ∈ (create_operation exDBwrite 9 1 1 1 0 exFormMixed).items,
        it.pollutant_id = pGarbage.id ∧ it.volume = 4 ∧ it.cost = 0) := by
  have h := create_line_item_policy exDBwrite 9 1 1 1 0 exFormMixed
  refine ⟨h.1, ⟨by decide, by decide, by decide, ?_⟩, ⟨by decide, by decide, ?_⟩, ?_⟩
  · exact h.2.1 pWater (by decide) (by decide) (by decide)
  · exact h.2.2.1 pSludge (by decide) (Or.inl (by decide))
  · exact h.2.2.2 pGarbage (by decide) (by decide) (by decide) 4 0 (by decide) (by decide)
      (Or.inl (by decide))

/-- C8 counterexample: the write guard is `volume > 0 or cost > 0`, so a
submission with volume `5` and cost `-3` for a substance persists a line
item with a negative cost — the non-negativity invariant claimed for both
fields fails. -/
theorem write_nonneg_invariant_cx :
    ¬ (∀ it ∈ (create_operation exDBwrite 9 1 1 1 0 exFormNeg).items,
        0 ≤ it.volume ∧ 0 ≤ it.cost) := by decide

/-- C8 (amended): every line item persisted by the create or edit handler
has `volume > 0` or `cost > 0` (in particular it is not all-zero); the
handlers do not guarantee each field individually non-negative. -/
theorem write_items_positive (db : DB) (newId oid s po c : Nat) (d : Int)
    (hd : Bool) (fd : Form) :
    (∀ it ∈ (create_operation db newId s po c d fd).items, 0 < it.volume ∨ 0 < it.cost)
    ∧ (∀ db2, update_operation db oid s po c d hd fd = some db2 →
        ∀ it ∈ db2.operation_pollutants,
          it ∈ db.operation_pollutants ∨ 0 < it.volume ∨ 0 < it.cost) := by
  constructor
  · intro it hit
    obtain ⟨q, _, _, _, v, cq, _, _, hpos, rfl⟩ := mem_buildLineItems.mp hit
    exact hpos
  · intro db2 hdb2 it hit
    unfold update_operation at hdb2
    cases hf : db.operations.find? (fun o => o.id == oid) with
    | none => rw [hf] at hdb2; exact absurd hdb2 (by simp)
    | some o =>
      rw [hf] at hdb2
      obtain rfl : _ = db2 := Option.some_inj.mp hdb2
      rcases List.mem_append.mp hit with hold | hnew
      · exact Or.inl (List.mem_of_mem_filter hold)
      · obtain ⟨q, _, _, _, v, cq, _, _, hpos, rfl⟩ := mem_buildLineItems.mp hnew
        exact Or.inr hpos

/-- C8 witness (amended claim): instantiated at `exFormNeg` — the
persisted item for pollutant 1 has `volume 5 > 0` (its cost is `-3`). -/
theorem write_items_positive_witness :
    (∀ it ∈ (create_operation exDBwrite 9 1 1 1 0 exFormNeg).items,
        0 < it.volume ∨ 0 < it.cost)
    ∧ (∀ db2, update_operation exDBwrite 7 1 1 1 0 false exFormNeg = some db2 →
        ∀ it ∈ db2.operation_pollutants,
          it ∈ exDBwrite.operation_pollutants ∨ 0 < it.volume ∨ 0 < it.cost) :=
  write_items_positive exDBwrite 9 7 1 1 1 0 false exFormNeg

/-- C9: a line item for substance `p` is built by the create/edit loop only
when both dynamic keys `volume_{p}` and `cost_{p}` are present in the
form; if either is absent the substance is skipped regardless of the
present value.  For the edit handler this covers every line item the
updated store attaches to the edited operation. -/
theorem line_item_requires_both_keys (db : DB) (newId oid s po c : Nat) (d : Int)
    (hd : Bool) (fd : Form) :
    (∀ p ∈ db.pollutants,
        (formHasKey fd (volume_key p) = false ∨ formHasKey fd (cost_key p) = false) →
        ∀ it ∈ (create_operation db newId s po c d fd).items, it.pollutant_id ≠ p.id)
    ∧ (∀ p ∈ db.pollutants,
        (formHasKey fd (volume_key p) = false ∨ formHasKey fd (cost_key p) = false) →
        ∀ db2, update_operation db oid s po c d hd fd = some db2 →
        ∀ it ∈ db2.operation_pollutants, it.operation_id = oid →
          it.pollutant_id ≠ p.id) := by
  have key : ∀ p, (formHasKey fd (volume_key p) = false ∨ formHasKey fd (cost_key p) = false) →
      ∀ ps opId, ∀ it ∈ buildLineItems ps fd opId, it.pollutant_id ≠ p.id := by
    intro p habs ps opId it hit heq
    obtain ⟨q, _, hk1, hk2, v, cq, _, _, _, rfl⟩ := mem_buildLineItems.mp hit
    rw [volume_key_congr heq] at hk1
    rw [cost_key_congr heq] at hk2
    cases habs with
    | inl h => rw [hk1] at h; exact absurd h (by simp)
    | inr h => rw [hk2] at h; exact absurd h (by simp)
  constructor
  · intro p hp habs it hit
    exact key p habs db.pollutants newId it hit
  · intro p hp habs db2 hdb2 it hit hoid
    unfold update_operation at hdb2
    cases hf : db.operations.find? (fun o => o.id == oid) with
    | none => rw [hf] at hdb2; exact absurd hdb2 (by simp)
    | some o =>
      rw [hf] at hdb2
      obtain rfl : _ = db2 := Option.some_inj.mp hdb2
      rcases List.mem_append.mp hit with hold | hnew
      · exfalso
        have := List.mem_filter.mp hold
        rw [hoid] at this
        simpa using this.2
      · exact key p habs db.pollutants oid it hnew

theorem parseIdList_eq_none_of_mem {t : String} {ts : List String}
    (ht : t ∈ ts) (hbad : pythonInt t = none) : parseIdList ts = none := by
  induction ts with
  | nil => cases ht
  | cons a ts ih =>
    unfold parseIdList
    rcases List.mem_cons.mp ht with rfl | hmem
    · rw [hbad]
    · rw [ih hmem]
      cases pythonInt a <;> rfl

/-- C5 counterexample: `"1,,3"` contains the token `""`, which does not
parse as an integer, yet the ship filter is still applied (the empty token
is discarded by the comprehension's `if id` before `int` runs), so the
result differs from the unfiltered listing. -/
theorem ship_filter_claim_cx :
    ("" ∈ pySplitStr ',' "1,,3" ∧ pythonInt "" = none) ∧
      list_operations exDB (some "1,,3") none none none "desc"
        ≠ list_operations exDB none none none none "desc" := by decide

/-- C5 (amended): a `ship_ids` string containing at least one *nonempty*
token that does not parse as an integer disables the entire ship filter:
the result equals the result with `ship_ids` absent (never a partial
filter, never an error); empty tokens are discarded before parsing and do
not disable the filter. -/
theorem bad_ship_ids_skips_filter (db : DB) (ship_ids : String)
    (sd ed : Option String) (pid : Option Int) (so : String)
    (h : ∃ t ∈ pySplitStr ',' ship_ids, (!t.isEmpty) = true ∧ pythonInt t = none) :
    list_operations db (some ship_ids) sd ed pid so
      = list_operations db none sd ed pid so := by
  have hnone : shipIdsFilter (some ship_ids) = none := by
    obtain ⟨t, ht, hne, hbad⟩ := h
    unfold shipIdsFilter
    dsimp only
    by_cases he : ship_ids.isEmpty
    · rw [if_pos he]
    · rw [if_neg he]
      exact parseIdList_eq_none_of_mem (List.mem_filter.mpr ⟨ht, hne⟩) hbad
  unfold list_operations
  rw [hnone]
  rfl

/-- C5 witness (amended claim): `"1,x,3"` (nonempty malformed token `"x"`)
yields exactly the unfiltered result on `exDB`. -/
theorem bad_ship_ids_skips_filter_witness :
    (∃ t ∈ pySplitStr ',' "1,x,3", (!t.isEmpty) = true ∧ pythonInt t = none) ∧
      list_operations exDB (some "1,x,3") none none none "desc"
        = list_operations exDB none none none none "desc" :=
  ⟨by decide,
    bad_ship_ids_skips_filter exDB "1,x,3" none none none "desc" (by decide)⟩

theorem mem_list_operations (db : DB) (si sd ed : Option String)
    (pid : Option Int) (so : String) (op : Operation) :
    op ∈ list_operations db si sd ed pid so ↔
      op ∈ db.operations ∧ shipOkb si op = true ∧ startOkb sd op = true ∧
        endOkb ed op = true ∧ portOkb pid op = true := by
  unfold list_operations shipOkb startOkb endOkb portOkb
  cases hsi : shipIdsFilter si <;> cases hsd : dateBound sd <;>
    cases hed : dateBound ed <;> cases hpid : pid <;>
    dsimp only <;> (repeat' split) <;>
    simp [List.mem_insertionSort, List.mem_filter, and_assoc, and_comm, and_left_comm]

/-- C6: each date bound of `GET /` acts independently — a malformed bound
contributes no constraint while a well-formed sibling bound still applies,
both bounds are inclusive (`startOkb`/`endOkb` are `date ≥`/`≤` exactly
when the bound parses, trivial otherwise), and no error is ever raised
(`list_operations` is total). -/
theorem date_bounds_independent_inclusive (db : DB) (si : Option String)
    (pid : Option Int) (so : String) (sd ed : Option String) (op : Operation) :
    op ∈ list_operations db si sd ed pid so ↔
      (op ∈ list_operations db si none none pid so ∧
        startOkb sd op = true ∧ endOkb ed op = true) := by
  rw [mem_list_operations, mem_list_operations]
  have h1 : startOkb none op = true := rfl
  have h2 : endOkb none op = true := rfl
  rw [h1, h2]
  tauto

/-- C1 (bug evidence): on `exDBempty` — ship `A` has no operations at all
and ship `B` only an operation dated after the cutoff — the summary is
empty instead of listing both ships with zero stats: the `WHERE
Operation.date <= cutoff` clause discards the NULL-extended rows produced
by the `LEFT OUTER JOIN`. -/
theorem summary_omits_operationless_ships :
    exDBempty.ships = [shipA, shipB] ∧ exDBempty.operations ≠ [] ∧
      summary_results exDBempty analytics_current_date = [] := by decide

/-- C2: for every ship with a summary row, the sum of the per-substance
`total_cost` over the ship's breakdown rows equals the ship's summary
`total_cost` (`getD 0` reads a NULL SQL sum as the zero shown to the
user).  Both sides are computed over the same cutoff-filtered operation
set; line items excluded from the breakdown (volume ≤ 0 and cost ≤ 0)
contribute nothing to the summary because, per the data model, volumes
and costs are non-negative, so such items have cost exactly 0.  Ship-name
uniqueness — the `unique=True` schema constraint — is a hypothesis. -/
theorem breakdown_cost_consistent_with_summary (db : DB) (cutoff : Int)
    (hsn : (db.ships.map Ship.name).Nodup)
    (hpos : ∀ it ∈ db.operation_pollutants, 0 ≤ it.volume ∧ 0 ≤ it.cost)
    (r : SummaryRow) (hr : r ∈ summary_results db cutoff) :
    (((pollutants_results db cutoff).filter
        (fun b => decide (b.ship_name = r.ship_name))).map BreakdownRow.total_cost).sum
      = r.total_cost.getD 0 := by
  obtain ⟨s, hs, hne, rfl⟩ := mem_summary_results.mp hr
  have hL1 : ((pollutants_results db cutoff).filter
      (fun b => decide (b.ship_name = (summaryRow db cutoff s).ship_name))).map
        BreakdownRow.total_cost
      = ((breakdownKeys db cutoff).filter (fun k => decide (k.1 = s.name))).map
          (fun k => (rowCosts (breakdownGroup db cutoff k)).sum) := by
    unfold pollutants_results
    rw [List.filter_map, List.map_map]
    rfl
  rw [hL1]
  have hknodup : ((breakdownKeys db cutoff).filter
      (fun k => decide (k.1 = s.name))).Nodup := by
    apply List.Nodup.filter
    unfold breakdownKeys
    exact ((List.perm_insertionSort keyLE _).nodup_iff).mpr (List.nodup_dedup _)
  have hcov : ∀ rj ∈ (breakdownSrc db cutoff).filter
      (fun rj => decide (rj.ship.name = s.name)),
      rowKey rj ∈ (breakdownKeys db cutoff).filter (fun k => decide (k.1 = s.name)) := by
    intro rj hrj
    obtain ⟨hsrc, hnm⟩ := List.mem_filter.mp hrj
    apply List.mem_filter.mpr
    refine ⟨?_, hnm⟩
    unfold breakdownKeys
    rw [List.mem_insertionSort, List.mem_dedup]
    exact List.mem_map.mpr ⟨rj, hsrc, rfl⟩
  have hgroup : ∀ k ∈ (breakdownKeys db cutoff).filter (fun k => decide (k.1 = s.name)),
      breakdownGroup db cutoff k
        = ((breakdownSrc db cutoff).filter
            (fun rj => decide (rj.ship.name = s.name))).filter
              (fun rj => decide (rowKey rj = k)) := by
    intro k hk
    obtain ⟨_, hk1⟩ := List.mem_filter.mp hk
    unfold breakdownGroup
    rw [List.filter_filter]
    apply List.filter_congr
    intro rj _
    by_cases h : rowKey rj = k
    · have hn : rj.ship.name = s.name := by
        have h1 : (rowKey rj).1 = k.1 := congrArg Prod.fst h
        rw [show (rowKey rj).1 = rj.ship.name from rfl] at h1
        rw [h1]
        exact of_decide_eq_true hk1
      rw [decide_eq_true h, decide_eq_true hn]
      rfl
    · rw [decide_eq_false h]
      rfl
  calc (((breakdownKeys db cutoff).filter (fun k => decide (k.1 = s.name))).map
          (fun k => (rowCosts (breakdownGroup db cutoff k)).sum)).sum
      = (((breakdownKeys db cutoff).filter (fun k => decide (k.1 = s.name))).map
          (fun k => ((((breakdownSrc db cutoff).filter
              (fun rj => decide (rj.ship.name = s.name))).filter
                (fun rj => decide (rowKey rj = k))).map
              (fun rj => (rj.item.map OperationPollutant.cost).getD 0)).sum)).sum := by
        apply congrArg List.sum
        apply List.map_congr_left
        intro k hk
        rw [hgroup k hk, sum_rowCosts_eq_map]
    _ = (((breakdownSrc db cutoff).filter
            (fun rj => decide (rj.ship.name = s.name))).map
          (fun rj => (rj.item.map OperationPollutant.cost).getD 0)).sum :=
        sum_map_filter_partition rowKey _ _ _ hknodup hcov
    _ = (rowCosts ((breakdownSrc db cutoff).filter
            (fun rj => decide (rj.ship.name = s.name)))).sum :=
        (sum_rowCosts_eq_map _).symm
    _ = (rowCosts ((joinShip db s).filter (rowQual cutoff))).sum := by
        rw [breakdownSrc_filter_name db cutoff hsn s hs]
    _ = ((db.operations.filter (fun o => o.ship_id == s.id)).map (fun o =>
          if o.date ≤ cutoff
          then (((opItems db o.id).filter itemQual).map OperationPollutant.cost).sum
          else 0)).sum :=
        sum_rowCosts_joinShip_filter db cutoff s (rowQual cutoff) itemQual
          (fun o it pl => rfl)
    _ = ((db.operations.filter (fun o => o.ship_id == s.id)).map (fun o =>
          if o.date ≤ cutoff
          then ((opItems db o.id).map OperationPollutant.cost).sum
          else 0)).sum := by
        apply congrArg List.sum
        apply List.map_congr_left
        intro o _
        have hz : ∀ it2 ∈ opItems db o.id, itemQual it2 = false → it2.cost = 0 := by
          intro it2 hit2 hqf
          obtain ⟨_, hc⟩ := hpos it2 (List.mem_of_mem_filter hit2)
          have hnc : ¬ (0 < it2.cost) := by
            unfold itemQual at hqf
            simp only [Bool.or_eq_false_iff, decide_eq_false_iff_not] at hqf
            exact hqf.2
          exact le_antisymm (not_lt.mp hnc) hc
        rw [sum_map_cost_filter_of_zero itemQual (opItems db o.id) hz]
    _ = (summaryRow db cutoff s).total_cost.getD 0 :=
        (summary_total_cost_getD db cutoff s).symm

/-- C2 witness: on `exDBnoItems` — one ship whose single operation
(dated before the cutoff) has no line items — the summary row for `A`
has a NULL total cost read as `0`, and the breakdown contributes an
empty sum `0` for `A`. -/
theorem breakdown_cost_consistent_with_summary_witness :
    ((exDBnoItems.ships.map Ship.name).Nodup ∧
      (∀ it ∈ exDBnoItems.operation_pollutants, 0 ≤ it.volume ∧ 0 ≤ it.cost) ∧
      summaryRow exDBnoItems analytics_current_date shipA
        ∈ summary_results exDBnoItems analytics_current_date) ∧
    (((pollutants_results exDBnoItems analytics_current_date).filter
        (fun b => decide (b.ship_name
          = (summaryRow exDBnoItems analytics_current_date shipA).ship_name))).map
        BreakdownRow.total_cost).sum
      = (summaryRow exDBnoItems analytics_current_date shipA).total_cost.getD 0 :=
  ⟨⟨by decide, by decide, by decide⟩,
    breakdown_cost_consistent_with_summary exDBnoItems analytics_current_date
      (by decide) (by decide) _ (by decide)⟩

/-- C3: the analytics breakdown has a row for `(ship, substance)` exactly
when some line item of that pair, on an operation dated on or before the
cutoff, has positive volume or positive cost (pairs whose every matching
line item is non-positive in both fields are omitted), and the rows are
ordered by ship name then substance name.  Name/id uniqueness — the
`unique=True` / primary-key schema constraints — are hypotheses. -/
theorem breakdown_rows_iff_qualifying (db : DB) (cutoff : Int)
    (hsn : (db.ships.map Ship.name).Nodup)
    (hpn : (db.pollutants.map Pollutant.name).Nodup)
    (hpi : (db.pollutants.map Pollutant.id).Nodup)
    (s : Ship) (hs : s ∈ db.ships) (p : Pollutant) (hp : p ∈ db.pollutants) :
    ((∃ b ∈ pollutants_results db cutoff,
        b.ship_name = s.name ∧ b.pollutant_name = some p.name) ↔
      ∃ o ∈ db.operations, o.ship_id = s.id ∧ o.date ≤ cutoff ∧
        ∃ it ∈ db.operation_pollutants, it.operation_id = o.id ∧
          it.pollutant_id = p.id ∧ (0 < it.volume ∨ 0 < it.cost))
    ∧ (pollutants_results db cutoff).Pairwise
        (fun a b => keyLEb (a.ship_name, a.pollutant_name)
          (b.ship_name, b.pollutant_name) = true) := by
  constructor
  · have hkey : (∃ b ∈ pollutants_results db cutoff,
        b.ship_name = s.name ∧ b.pollutant_name = some p.name) ↔
        (s.name, some p.name) ∈ breakdownKeys db cutoff := by
      unfold pollutants_results
      constructor
      · rintro ⟨b, hb, hbs, hbp⟩
        obtain ⟨k, hk, rfl⟩ := List.mem_map.mp hb
        dsimp only at hbs hbp
        have hkk : k = (s.name, some p.name) := Prod.ext hbs hbp
        rw [← hkk]
        exact hk
      · intro hk
        exact ⟨_, List.mem_map.mpr ⟨(s.name, some p.name), hk, rfl⟩, rfl, rfl⟩
    rw [hkey]
    unfold breakdownKeys
    rw [List.mem_insertionSort, List.mem_dedup, List.mem_map]
    constructor
    · rintro ⟨r, hr, hrk⟩
      obtain ⟨s2, hs2, o, ho, hsid, hdate, it, hitdb, hitop, hpos, rfl⟩ :=
        mem_breakdownSrc_iff.mp hr
      unfold rowKey at hrk
      dsimp only at hrk
      have hrk1 : s2.name = s.name := congrArg Prod.fst hrk
      have hrk2 : (lookupPollutant db it.pollutant_id).map (fun q => q.name)
          = some p.name := congrArg Prod.snd hrk
      obtain rfl : s2 = s := List.inj_on_of_nodup_map hsn hs2 hs hrk1
      obtain ⟨q, hql, hqname⟩ := Option.map_eq_some'.mp hrk2
      obtain ⟨hqmem, hqid⟩ := lookupPollutant_mem hql
      obtain rfl : q = p := List.inj_on_of_nodup_map hpn hqmem hp hqname
      exact ⟨o, ho, hsid, hdate, it, hitdb, hitop, hqid.symm, hpos⟩
    · rintro ⟨o, ho, hsid, hdate, it, hitdb, hitop, hpid, hpos⟩
      refine ⟨⟨s, some o, some it, lookupPollutant db it.pollutant_id⟩,
        mem_breakdownSrc_iff.mpr ⟨s, hs, o, ho, hsid, hdate, it, hitdb, hitop,
          hpos, rfl⟩, ?_⟩
      unfold rowKey
      dsimp only
      rw [hpid, lookupPollutant_self hpi hp]
      rfl
  · unfold pollutants_results
    rw [List.pairwise_map]
    exact pairwise_keyLE_insertionSort _

/-- C3 witness: instantiated on `exDB` at ship `A` and pollutant `Water`:
line item 1 (volume 5, cost 10) qualifies on the 2025-01-01 operation, so
the breakdown carries an `("A", "Water")` row, and the whole breakdown is
key-sorted. -/
theorem breakdown_rows_iff_qualifying_witness :
    ((exDB.ships.map Ship.name).Nodup ∧ (exDB.pollutants.map Pollutant.name).Nodup ∧
      (exDB.pollutants.map Pollutant.id).Nodup ∧ shipA ∈ exDB.ships ∧
      pWater ∈ exDB.pollutants) ∧
    (((∃ b ∈ pollutants_results exDB analytics_current_date,
        b.ship_name = shipA.name ∧ b.pollutant_name = some pWater.name) ↔
      ∃ o ∈ exDB.operations, o.ship_id = shipA.id ∧
        o.date ≤ analytics_current_date ∧
        ∃ it ∈ exDB.operation_pollutants, it.operation_id = o.id ∧
          it.pollutant_id = pWater.id ∧ (0 < it.volume ∨ 0 < it.cost))
    ∧ (pollutants_results exDB analytics_current_date).Pairwise
        (fun a b => keyLEb (a.ship_name, a.pollutant_name)
          (b.ship_name, b.pollutant_name) = true)) :=
  ⟨⟨by decide, by decide, by decide, by decide, by decide⟩,
    breakdown_rows_iff_qualifying exDB analytics_current_date (by decide) (by decide)
      (by decide) shipA (by decide) pWater (by decide)⟩

/-- C9 witness: `exFormHalf` carries `volume_1 = "5"` but no `cost_1`, so
no line item for pollutant 1 is persisted despite the positive volume. -/
theorem line_item_requires_both_keys_witness :
    pWater ∈ exDBwrite.pollutants ∧
      formHasKey exFormHalf (cost_key pWater) = false ∧
      ∀ it ∈ (create_operation exDBwrite 9 1 1 1 0 exFormHalf).items,
        it.pollutant_id ≠ pWater.id :=
  ⟨by decide, by decide,
    (line_item_requires_both_keys exDBwrite 9 7 1 1 1 0 false exFormHalf).1 pWater
      (by decide) (Or.inr (by decide))⟩

end Fleet
